import Mathlib

/-!
# Verification of the reproschema-py schema object model

Shallow embedding of `src/reproschema/models/base.py` and
`src/reproschema/models/activity.py`: the `SchemaBase` attribute record, its
projection into the serializable JSON-like document (`update`), the key-order
canonicalization (`sort`), the written document (`write`), and loading
(`from_data`).

JSON values are modelled by the inductive `Value`; Python `dict`s are modelled
as insertion-ordered association lists (`List (String × α)`) with the Python
assignment semantics: assigning to an existing key keeps its position,
assigning to a fresh key appends at the end.

Python `str.replace` (which replaces every non-overlapping occurrence) and
`str.endswith` are re-implemented over `List Char` because the built-in
`String` operations do not reduce in the kernel.

`json.dump(..., sort_keys=False, indent=4)` is a deterministic, injective
encoding of a document, so equality of written bytes coincides with equality
of the written documents; theorems about written bytes are therefore stated
as equalities of documents.

The repository files `models/utils.py` (class `SchemaUtils`:
`reorder_dict_skip_missing`, `sort_schema`, `drop_empty_values_from_schema`,
and the `schema`/`schema_order` fields), `models/ui.py` (class `UI`) and
`models/protocol.py` / `models/item.py` are not present under `src/`; the
parts of them that the development needs are modelled from the spec and are
marked as such in their doc comments.
-/

namespace Reproschema

/-- A JSON value as produced by the model classes.  Arrays and objects are
encoded with explicit cons constructors (instead of nested `List`s) so that
`DecidableEq` can be derived; the smart constructors `Value.arr` and
`Value.obj` build them from lists. -/
inductive Value where
  | null : Value
  | bool (b : Bool) : Value
  | num (n : Int) : Value
  | str (s : String) : Value
  | arrNil : Value
  | arrCons (hd tl : Value) : Value
  | objNil : Value
  | objCons (key : String) (val tl : Value) : Value
deriving DecidableEq

/-- Build an array value from a list of values. -/
def Value.arr (xs : List Value) : Value := xs.foldr Value.arrCons Value.arrNil

/-- Build an object value from an insertion-ordered association list. -/
def Value.obj (kvs : List (String × Value)) : Value :=
  kvs.foldr (fun kv acc => Value.objCons kv.1 kv.2 acc) Value.objNil

/-- Python dict lookup: first binding of the key, if any. -/
def dictGet {α : Type} : List (String × α) → String → Option α
  | [], _ => none
  | (k', v) :: rest, k => if k' = k then some v else dictGet rest k

/-- Python dict assignment `d[k] = v`: replaces the first binding of `k` in
place, or appends a new binding at the end (insertion order). -/
def dictSet {α : Type} : List (String × α) → String → α → List (String × α)
  | [], k, v => [(k, v)]
  | (k', v') :: rest, k, v =>
    if k' = k then (k, v) :: rest else (k', v') :: dictSet rest k v

/-- The key sequence of a Python dict. -/
def keys {α : Type} (m : List (String × α)) : List String := m.map Prod.fst

/-- Fuel-based worker for `pyReplace` (structural recursion so that the kernel
can evaluate it; the fuel is the length of the string, which suffices because
each step consumes at least one character). -/
def pyReplaceAux (pat repl : List Char) : Nat → List Char → List Char
  | _, [] => []
  | 0, s => s
  | fuel + 1, c :: rest =>
    if pat.isPrefixOf (c :: rest) then
      repl ++ pyReplaceAux pat repl fuel ((c :: rest).drop pat.length)
    else
      c :: pyReplaceAux pat repl fuel rest

/-- Python `s.replace(pat, repl)`: replaces every non-overlapping occurrence,
left to right.  For the empty pattern Python inserts `repl` at every position
(`"ab".replace("", "-") == "-a-b-"`), which the first branch reproduces. -/
def pyReplace (s pat repl : String) : String :=
  if pat.data = [] then
    String.mk (repl.data ++ (s.data.map fun c => c :: repl.data).flatten)
  else
    String.mk (pyReplaceAux pat.data repl.data s.data.length s.data)

/-- Python `s.endswith(suf)` (in particular `s.endswith("") == True`). -/
def pyEndsWith (s suf : String) : Bool := suf.data.isSuffixOf s.data

/-- Python `s.startswith(pre)`. -/
def pyStartsWith (s pre : String) : Bool := pre.data.isPrefixOf s.data

/-- Python `os.path.join(a, b)` for the POSIX paths the library builds. -/
def pathJoin (a b : String) : String :=
  if pyStartsWith b "/" then b
  else if a = "" ∨ pyEndsWith a "/" then a ++ b
  else a ++ "/" ++ b

/-- The Python exceptions the modelled code can raise.  The spec's error
taxonomy names the `ValueError` raised by `from_data` on a tag mismatch
`TypeMismatchError`, and the `ValueError` raised by an `attrs` validator
`ValidationError`. -/
inductive PyError where
  | validationError (value : String) : PyError
  | typeMismatch : PyError
  | keyError (key : String) : PyError
  | attributeError (attr : String) : PyError
deriving DecidableEq

instance {ε α : Type} [DecidableEq ε] [DecidableEq α] : DecidableEq (Except ε α) :=
  fun a b =>
    match a, b with
    | .ok x, .ok y =>
      if h : x = y then .isTrue (by rw [h]) else .isFalse (by intro hc; cases hc; exact h rfl)
    | .ok _, .error _ => .isFalse (by intro hc; cases hc)
    | .error _, .ok _ => .isFalse (by intro hc; cases hc)
    | .error e, .error f =>
      if h : e = f then .isTrue (by rw [h]) else .isFalse (by intro hc; cases hc; exact h rfl)

/-! ## Constants of `base.py` -/

/-- From `base.py`: `DEFAULT_LANG()`. -/
def DEFAULT_LANG : String := "en"

/-- From `base.py`: `DEFAULT_VERSION()`. -/
def DEFAULT_VERSION : String := "1.0.0-rc4"

/-- From `base.py`: `COMMON_SCHEMA_ORDER()`, the canonical key-order prefix shared
by every entity variant. -/
def COMMON_SCHEMA_ORDER : List String :=
  ["@context", "@type", "@id", "schemaVersion", "version", "prefLabel",
   "altLabel", "description", "preamble", "image", "ui"]

/-- From `base.py`: the enumeration the `at_type` field is validated against. -/
def AT_TYPE_ENUM : List String :=
  ["reproschema:Protocol", "reproschema:Activity", "reproschema:Field",
   "reproschema:ResponseOption"]

/-- The `attrs` field definition of `at_type`: the converter
`default_if_none(default="reproschema:Field")` followed by the validator
`in_(AT_TYPE_ENUM)`, which raises a `ValidationError` for a value outside the
enumeration.  Models passing `at_type=x` to the constructor. -/
def validate_at_type (x : Option String) : Except PyError String :=
  let v := match x with
    | none => "reproschema:Field"
    | some s => s
  if v ∈ AT_TYPE_ENUM then .ok v else .error (.validationError v)

/-! ## The UI sub-document -/

/-- Modelled from the spec: `models/ui.py` (class `UI`) is not under `src/`.
Per the spec the UI sub-document is a nested record of presentation
directives — an ordered list of sub-item references and presentation flags —
with its own canonical key order; only the parts the claims exercise are kept
(the ordered list and the shuffle flag set by `Activity.__init__`). -/
structure UI where
  order : List String
  shuffle : Option Bool
  schema : List (String × Value)
deriving DecidableEq

/-- Modelled from the spec: `UI.update()` projects the UI attributes into the
UI's own schema mapping in the UI's canonical order, omitting empty values
(the spec's invariant that empty keys are never emitted). -/
def UI.update (u : UI) : UI :=
  { u with
    schema :=
      (if u.order.isEmpty then [] else [("order", Value.arr (u.order.map Value.str))]) ++
      (match u.shuffle with
       | none => []
       | some b => [("shuffle", Value.bool b)]) }

/-! ## The SchemaBase attribute record -/

/-- The attribute set of `SchemaBase` (with the fields inherited from
`SchemaUtils`: `schema`, `schema_order`).  Defaults and converters of the
`attrs` fields are applied at construction sites.  `image` holds the value
verbatim (string or mapping), hence `Option Value`; `readonlyValue` and
`required` have no `default_if_none` converter and so can be `None`. -/
structure SchemaBase where
  at_type : String
  at_id : String
  schemaVersion : String
  version : String
  at_context : String
  prefLabel : List (String × String)
  altLabel : List (String × String)
  description : String
  image : Option Value
  preamble : List (String × String)
  landingPage : List (String × String)
  citation : String
  compute : List Value
  inputType : String
  readonlyValue : Option Bool
  question : List (String × String)
  ui : UI
  visible : Bool
  required : Option Bool
  skippable : Bool
  limit : String
  lang : String
  output_dir : String
  suffix : String
  ext : String
  URI : String
  schema : List (String × Value)
  schema_order : List String
deriving DecidableEq

/-- A language-keyed string mapping as a JSON object value. -/
def langVal (m : List (String × String)) : Value :=
  Value.obj (m.map fun p => (p.1, Value.str p.2))

/-! ## Operations of `base.py` -/

/-- From `base.py`, `update_ui`: refresh the UI sub-document and re-embed its
schema under the `ui` key. -/
def SchemaBase.update_ui (s : SchemaBase) : SchemaBase :=
  let u := s.ui.update
  { s with ui := u, schema := dictSet s.schema "ui" (Value.obj u.schema) }

/-- From `base.py`, `update`: project the attributes into the serializable
structure.  Sets `@id`, `@type`, `@context`, then the eleven keys of
`keys_to_update` in order, then delegates to `update_ui`. -/
def SchemaBase.update (s : SchemaBase) : SchemaBase :=
  let sc := dictSet s.schema "@id" (Value.str s.at_id)
  let sc := dictSet sc "@type" (Value.str s.at_type)
  let sc := dictSet sc "@context" (Value.str s.at_context)
  let sc := dictSet sc "schemaVersion" (Value.str s.schemaVersion)
  let sc := dictSet sc "version" (Value.str s.version)
  let sc := dictSet sc "prefLabel" (langVal s.prefLabel)
  let sc := dictSet sc "altLabel" (langVal s.altLabel)
  let sc := dictSet sc "description" (Value.str s.description)
  let sc := dictSet sc "citation" (Value.str s.citation)
  let sc := dictSet sc "image" (match s.image with | none => Value.null | some v => v)
  let sc := dictSet sc "preamble" (langVal s.preamble)
  let sc := dictSet sc "landingPage" (langVal s.landingPage)
  let sc := dictSet sc "compute" (Value.arr s.compute)
  let sc := dictSet sc "question" (langVal s.question)
  SchemaBase.update_ui { s with schema := sc }

/-- From `base.py`, `set_preamble`: no-op when the text is `None`, otherwise store
under the given (or default) language and re-project. -/
def SchemaBase.set_preamble (s : SchemaBase) (preamble lang : Option String) :
    SchemaBase :=
  match preamble with
  | none => s
  | some text =>
    let lg := lang.getD s.lang
    SchemaBase.update { s with preamble := dictSet s.preamble lg text }

/-- From `base.py`, `set_landing_page`: no-op when the page is `None`, otherwise
replace `landingPage` wholesale and re-project. -/
def SchemaBase.set_landing_page (s : SchemaBase) (page lang : Option String) :
    SchemaBase :=
  match page with
  | none => s
  | some url =>
    let lg := lang.getD s.lang
    SchemaBase.update { s with landingPage := [("@id", url), ("inLanguage", lg)] }

/-- From `base.py`, `set_compute(variable, expression)`: replace `compute` with the
one-element list and re-project (`variable` is a Lean keyword, hence the
parameter names). -/
def SchemaBase.set_compute (s : SchemaBase) (vName expression : String) :
    SchemaBase :=
  SchemaBase.update
    { s with
      compute :=
        [Value.obj [("variableName", Value.str vName),
                    ("jsExpression", Value.str expression)]] }

/-- The name sanitization inside `base.py` `set_filename`: conditionally
remove the extension, then the suffix (Python `str.replace`, i.e. every
occurrence, guarded by `str.endswith`), then turn spaces into underscores. -/
def sanitizeBase (name suffix ext : String) : String :=
  let n := if pyEndsWith name ext then pyReplace name ext "" else name
  let n := if pyEndsWith n suffix then pyReplace n suffix "" else n
  pyReplace n " " "_"

/-- From `base.py`, `set_filename`: recompute `at_id` from the given name (or the
current `at_id`), recompute `URI`, and re-project. -/
def SchemaBase.set_filename (s : SchemaBase) (name : Option String) : SchemaBase :=
  let n := name.getD s.at_id
  let newId := sanitizeBase n s.suffix s.ext ++ s.suffix ++ s.ext
  SchemaBase.update { s with at_id := newId, URI := pathJoin s.output_dir newId }

/-- From `base.py`, `set_alt_label`: returns immediately when the label is `None`;
otherwise the assignment `self.alt_label[lang] = alt_label` reads the
attribute `alt_label`, which does not exist (the field is named `altLabel`),
so Python raises `AttributeError` before anything is mutated. -/
def SchemaBase.set_alt_label (s : SchemaBase) (alt_label lang : Option String) :
    Except PyError SchemaBase :=
  match alt_label with
  | none => .ok s
  | some _ => .error (.attributeError "alt_label")

/-- The literal placeholder labels `set_pref_label` re-derives over. -/
def PLACEHOLDERS : List String := ["protocol", "activity", "item"]

/-- The explicit-text branch of `base.py` `set_pref_label` (also the target
of its self-call on the re-derivation path). -/
def SchemaBase.set_pref_label_explicit (s : SchemaBase) (text lg : String) :
    SchemaBase :=
  SchemaBase.update { s with prefLabel := dictSet s.prefLabel lg text }

/-- From `base.py`, `set_pref_label`: with a label, store it and re-project; with
`None`, re-derive the label from `at_id` when `prefLabel` is empty or its
entry for `DEFAULT_LANG()` is a placeholder — the subscript
`self.prefLabel[DEFAULT_LANG()]` raises `KeyError` when `prefLabel` is
non-empty without an `"en"` entry. -/
def SchemaBase.set_pref_label (s : SchemaBase) (pref_label lang : Option String) :
    Except PyError SchemaBase :=
  match pref_label with
  | some text => .ok (s.set_pref_label_explicit text (lang.getD s.lang))
  | none =>
    if s.prefLabel = [] then
      .ok (s.set_pref_label_explicit (pyReplace s.at_id "_" " ") s.lang)
    else
      match dictGet s.prefLabel DEFAULT_LANG with
      | none => .error (.keyError DEFAULT_LANG)
      | some v =>
        if v ∈ PLACEHOLDERS then
          .ok (s.set_pref_label_explicit (pyReplace s.at_id "_" " ") s.lang)
        else
          .ok s

/-! ## Sorting, writing, loading -/

/-- Modelled from the spec: `reorder_dict_skip_missing` lives in
`models/utils.py`, which is not under `src/`.  Spec contract: for every key
of `keyOrder` present in the mapping, append it in that order; keys of the
mapping absent from `keyOrder` are dropped; keys of `keyOrder` absent from
the mapping are skipped. -/
def reorder_dict_skip_missing (m : List (String × Value)) :
    List String → List (String × Value)
  | [] => []
  | k :: rest =>
    match dictGet m k with
    | some v => (k, v) :: reorder_dict_skip_missing m rest
    | none => reorder_dict_skip_missing m rest

/-- A value the writer drops: the spec's "empty string, empty mapping, empty
sequence, or null". -/
def isEmptyValue : Value → Bool
  | .null => true
  | .str s => s == ""
  | .arrNil => true
  | .objNil => true
  | _ => false

/-- Modelled from the spec: `drop_empty_values_from_schema` lives in
`models/utils.py`, which is not under `src/`.  Spec contract: drop any
remaining empty/default-valued keys from the final structure. -/
def drop_empty_values (m : List (String × Value)) : List (String × Value) :=
  m.filter fun kv => !isEmptyValue kv.2

/-- Modelled from the spec: `sort_schema` lives in `models/utils.py`, which is
not under `src/`.  It canonicalizes the schema's key order with
`reorder_dict_skip_missing` against the variant's `schema_order`. -/
def SchemaBase.sort_schema (s : SchemaBase) : SchemaBase :=
  { s with schema := reorder_dict_skip_missing s.schema s.schema_order }

/-- From `base.py`, `sort`: `sort_schema` then `update_ui`. -/
def SchemaBase.sort (s : SchemaBase) : SchemaBase := s.sort_schema.update_ui

/-- The document `base.py` `write` persists: `sort()` followed by
`drop_empty_values_from_schema()`; `json.dump` then renders exactly this
document (deterministically and injectively), so written bytes are equal iff
these documents are equal. -/
def SchemaBase.writtenDoc (s : SchemaBase) : List (String × Value) :=
  drop_empty_values s.sort.schema

/-- From `base.py`, `from_data`: instantiate the variant's default entity
(`cls()`, here the parameter `dflt`), fail with the `ValueError` the spec
calls `TypeMismatchError` unless `data["@type"]` equals the default's
`at_type`, then adopt `data` wholesale as the serializable structure. -/
def SchemaBase.from_data (dflt : SchemaBase) (data : List (String × Value)) :
    Except PyError SchemaBase :=
  match dictGet data "@type" with
  | none => .error (.keyError "@type")
  | some v =>
    if v = Value.str dflt.at_type then .ok { dflt with schema := data }
    else .error .typeMismatch

/-! ## Construction of an Activity (`activity.py`) -/

/-- From `base.py`: `_default_context`. -/
def defaultContext (ver : String) : String :=
  "https://raw.githubusercontent.com/ReproNim/reproschema/" ++ ver ++
    "/contexts/generic"

/-- From `activity.py`: the Activity schema order, `COMMON_SCHEMA_ORDER() +
["citation", "compute"]`. -/
def activitySchemaOrder : List String := COMMON_SCHEMA_ORDER ++ ["citation", "compute"]

/-- Python `Path.cwd()`, the default `output_dir`: a runtime value, modelled as a
fixed abstract path (no claim depends on its contents). -/
def CWD : String := "."

/-- The `SchemaBase` record as `attrs` initializes it for
`Activity.__init__`'s call to `super().__init__` (all defaults and
`default_if_none` converters applied), before `__attrs_post_init__` runs. -/
def activityPre (name prefLabelArg lang : String) : SchemaBase :=
  { at_type := "reproschema:Activity"
    at_id := name
    schemaVersion := DEFAULT_VERSION
    version := "0.0.1"
    at_context := defaultContext DEFAULT_VERSION
    prefLabel := [(lang, prefLabelArg)]
    altLabel := []
    description := ""
    image := none
    preamble := []
    landingPage := []
    citation := ""
    compute := []
    inputType := ""
    readonlyValue := some false
    question := []
    ui := { order := [], shuffle := none, schema := [] }
    visible := true
    required := some false
    skippable := true
    limit := ""
    lang := lang
    output_dir := CWD
    suffix := "_schema"
    ext := ".jsonld"
    URI := ""
    schema := []
    schema_order := activitySchemaOrder }

/-- From `base.py`, `__attrs_post_init__`: default the description from `at_id`,
then `set_pref_label()` and `set_filename()`. -/
def attrsPostInit (s : SchemaBase) : Except PyError SchemaBase := do
  let s := if s.description = "" then
    { s with description := pyReplace s.at_id "_" " " } else s
  let s ← s.set_pref_label none none
  pure (s.set_filename none)

/-- From `activity.py`, `Activity.__init__`: build the record, run the `attrs`
post-init, then set `ui.shuffle = False` and `update()`. -/
def activityInit (name prefLabelArg lang : String) : Except PyError SchemaBase := do
  let s ← attrsPostInit (activityPre name prefLabelArg lang)
  pure (SchemaBase.update { s with ui := { s.ui with shuffle := some false } })

/-- The default Activity, `Activity()` (construction succeeds; the fallback
branch is never taken — see `activityInit_ok`). -/
def activityDefault : SchemaBase :=
  match activityInit "activity" "activity" DEFAULT_LANG with
  | .ok s => s
  | .error _ => activityPre "activity" "activity" DEFAULT_LANG

theorem activityInit_ok :
    activityInit "activity" "activity" DEFAULT_LANG = .ok activityDefault := by
  decide

/-! ## Association-list lemmas -/

@[simp] theorem keys_nil {α : Type} : keys ([] : List (String × α)) = [] := rfl

@[simp] theorem keys_cons {α : Type} (k : String) (v : α) (m : List (String × α)) :
    keys ((k, v) :: m) = k :: keys m := rfl

theorem dictGet_dictSet {α : Type} (m : List (String × α)) (k k' : String) (v : α) :
    dictGet (dictSet m k v) k' = if k = k' then some v else dictGet m k' := by
  induction m with
  | nil => by_cases h : k = k' <;> simp [dictSet, dictGet, h]
  | cons kv rest ih =>
    obtain ⟨k1, v1⟩ := kv
    by_cases h1 : k1 = k
    · subst h1
      by_cases h2 : k1 = k' <;> simp [dictSet, dictGet, h2]
    · by_cases h2 : k1 = k'
      · subst h2
        have hk : ¬ k = k1 := fun he => h1 he.symm
        simp [dictSet, dictGet, h1, hk]
      · simp [dictSet, dictGet, h1, h2, ih]

theorem dictGet_eq_none_iff {α : Type} (m : List (String × α)) (k : String) :
    dictGet m k = none ↔ k ∉ keys m := by
  induction m with
  | nil => simp [dictGet]
  | cons kv rest ih =>
    obtain ⟨k1, v1⟩ := kv
    by_cases h : k1 = k
    · subst h
      simp [dictGet]
    · have h' : ¬ k = k1 := fun he => h he.symm
      simp [dictGet, h, h', ih]

theorem dictGet_isSome_iff {α : Type} (m : List (String × α)) (k : String) :
    (dictGet m k).isSome = true ↔ k ∈ keys m := by
  rcases h : dictGet m k with _ | v
  · simpa using (dictGet_eq_none_iff m k).mp h
  · simp only [Option.isSome_some, true_iff]
    by_contra hk
    rw [(dictGet_eq_none_iff m k).mpr hk] at h
    cases h

theorem keys_dictSet_of_mem {α : Type} (m : List (String × α)) (k : String) (v : α)
    (h : k ∈ keys m) : keys (dictSet m k v) = keys m := by
  induction m with
  | nil => simp at h
  | cons kv rest ih =>
    obtain ⟨k1, v1⟩ := kv
    by_cases h1 : k1 = k
    · subst h1
      simp [dictSet]
    · have hk : k ∈ keys rest := by
        rcases List.mem_cons.mp (by simpa using h) with h' | h'
        · exact absurd h'.symm h1
        · exact h'
      simp [dictSet, h1, ih hk]

theorem dictSet_of_not_mem {α : Type} (m : List (String × α)) (k : String) (v : α)
    (h : k ∉ keys m) : dictSet m k v = m ++ [(k, v)] := by
  induction m with
  | nil => simp [dictSet]
  | cons kv rest ih =>
    obtain ⟨k1, v1⟩ := kv
    simp only [keys_cons, List.mem_cons, not_or] at h
    have h1 : ¬ k1 = k := fun he => h.1 he.symm
    simp [dictSet, h1, ih h.2]

theorem dictSet_eq_self {α : Type} (m : List (String × α)) (k : String) (v : α)
    (h : dictGet m k = some v) : dictSet m k v = m := by
  induction m with
  | nil => cases h
  | cons kv rest ih =>
    obtain ⟨k1, v1⟩ := kv
    by_cases h1 : k1 = k
    · subst h1
      simp [dictGet] at h
      simp [dictSet, h]
    · simp only [dictGet, if_neg h1] at h
      simp [dictSet, h1, ih h]

/-! ## Reorder lemmas -/

theorem reorder_nil (ord : List String) :
    reorder_dict_skip_missing [] ord = [] := by
  induction ord with
  | nil => rfl
  | cons k rest ih => simp [reorder_dict_skip_missing, dictGet, ih]

theorem keys_reorder (m : List (String × Value)) (ord : List String) :
    keys (reorder_dict_skip_missing m ord) =
      ord.filter (fun k => (dictGet m k).isSome) := by
  induction ord with
  | nil => rfl
  | cons k rest ih =>
    rcases h : dictGet m k with _ | v <;>
      simp [reorder_dict_skip_missing, h, List.filter_cons, ih]

theorem dictGet_reorder (m : List (String × Value)) (ord : List String)
    (hnd : ord.Nodup) (k : String) (hk : k ∈ ord) :
    dictGet (reorder_dict_skip_missing m ord) k = dictGet m k := by
  induction ord with
  | nil => cases hk
  | cons o rest ih =>
    rcases List.mem_cons.mp hk with h | h
    · subst h
      rcases hg : dictGet m k with _ | v
      · simp only [reorder_dict_skip_missing, hg]
        rw [(dictGet_eq_none_iff _ _).mpr]
        rw [keys_reorder]
        intro hmem
        exact absurd ((List.mem_filter.mp hmem).1) (List.nodup_cons.mp hnd).1
      · simp [reorder_dict_skip_missing, hg, dictGet]
    · have hko : ¬ o = k := fun he => (List.nodup_cons.mp hnd).1 (he ▸ h)
      rcases hg : dictGet m o with _ | v
      · simp only [reorder_dict_skip_missing, hg]
        exact ih (List.nodup_cons.mp hnd).2 h
      · simp only [reorder_dict_skip_missing, hg, dictGet, if_neg hko]
        exact ih (List.nodup_cons.mp hnd).2 h

theorem reorder_congr (m m' : List (String × Value)) (ord : List String)
    (h : ∀ k ∈ ord, dictGet m k = dictGet m' k) :
    reorder_dict_skip_missing m ord = reorder_dict_skip_missing m' ord := by
  induction ord with
  | nil => rfl
  | cons o rest ih =>
    have ho := h o (List.mem_cons_self o rest)
    have ih' := ih fun k hk => h k (List.mem_cons_of_mem o hk)
    rcases hg : dictGet m' o with _ | v <;>
      simp [reorder_dict_skip_missing, hg ▸ ho, hg, ih']

theorem reorder_eq_self (m : List (String × Value)) (ord : List String)
    (hnd : ord.Nodup) (hsub : List.Sublist (keys m) ord) :
    reorder_dict_skip_missing m ord = m := by
  induction ord generalizing m with
  | nil =>
    have h0 : keys m = [] := List.sublist_nil.mp hsub
    cases m with
    | nil => rfl
    | cons kv rest =>
      obtain ⟨k1, v1⟩ := kv
      simp at h0
  | cons o rest ih =>
    cases m with
    | nil => exact reorder_nil _
    | cons kv m' =>
      obtain ⟨k, v⟩ := kv
      have hndr := (List.nodup_cons.mp hnd).2
      have honr := (List.nodup_cons.mp hnd).1
      cases hsub with
      | cons _ h' =>
        have ho : o ∉ keys ((k, v) :: m') := fun hmem => honr (h'.subset hmem)
        simp only [reorder_dict_skip_missing, (dictGet_eq_none_iff _ _).mpr ho]
        exact ih _ hndr h'
      | cons₂ _ h' =>
        have hget : dictGet ((k, v) :: m') k = some v := by simp [dictGet]
        simp only [reorder_dict_skip_missing, hget]
        have hcongr : ∀ k' ∈ rest, dictGet ((k, v) :: m') k' = dictGet m' k' := by
          intro k' hk'
          have hkk : ¬ k = k' := fun he => honr (he ▸ hk')
          simp [dictGet, hkk]
        rw [reorder_congr _ _ _ hcongr, ih _ hndr h']

/-! ## Drop-empty lemmas -/

theorem keys_drop_empty_sublist (m : List (String × Value)) :
    List.Sublist (keys (drop_empty_values m)) (keys m) :=
  (List.filter_sublist m).map Prod.fst

theorem dictGet_drop_empty_of_some (m : List (String × Value)) (k : String)
    (v : Value) (h : dictGet m k = some v) (hv : isEmptyValue v = false) :
    dictGet (drop_empty_values m) k = some v := by
  induction m with
  | nil => cases h
  | cons kv rest ih =>
    obtain ⟨k1, v1⟩ := kv
    by_cases h1 : k1 = k
    · subst h1
      simp [dictGet] at h
      subst h
      simp [drop_empty_values, List.filter_cons, hv, dictGet]
    · simp only [dictGet, if_neg h1] at h
      by_cases he : isEmptyValue v1 <;>
        simp [drop_empty_values, List.filter_cons, he, dictGet, h1] <;>
        simpa [drop_empty_values] using ih h

theorem dictGet_drop_empty_of_none (m : List (String × Value)) (k : String)
    (h : dictGet m k = none) : dictGet (drop_empty_values m) k = none := by
  rw [dictGet_eq_none_iff] at h ⊢
  exact fun hmem => h ((keys_drop_empty_sublist m).subset hmem)

theorem dictGet_drop_empty_of_empty (m : List (String × Value)) (k : String)
    (v : Value) (hnd : (keys m).Nodup) (h : dictGet m k = some v)
    (hv : isEmptyValue v = true) :
    dictGet (drop_empty_values m) k = none := by
  induction m with
  | nil => cases h
  | cons kv rest ih =>
    obtain ⟨k1, v1⟩ := kv
    rw [keys_cons, List.nodup_cons] at hnd
    by_cases h1 : k1 = k
    · subst h1
      simp [dictGet] at h
      subst h
      simp [drop_empty_values, List.filter_cons, hv]
      exact dictGet_drop_empty_of_none _ _ ((dictGet_eq_none_iff _ _).mpr hnd.1)
    · simp only [dictGet, if_neg h1] at h
      by_cases he : isEmptyValue v1 <;>
        simp [drop_empty_values, List.filter_cons, he, dictGet, h1] <;>
        simpa [drop_empty_values] using ih hnd.2 h

theorem drop_empty_idem (m : List (String × Value)) :
    drop_empty_values (drop_empty_values m) = drop_empty_values m := by
  simp [drop_empty_values, List.filter_filter]

theorem drop_empty_append (a b : List (String × Value)) :
    drop_empty_values (a ++ b) = drop_empty_values a ++ drop_empty_values b := by
  simp [drop_empty_values, List.filter_append]

theorem mem_drop_empty_not_empty (m : List (String × Value)) :
    ∀ kv ∈ drop_empty_values m, isEmptyValue kv.2 = false := by
  intro kv hkv
  have := List.of_mem_filter hkv
  simpa using this

/-! ## Claim theorems -/

/-- C10: for every entity, calling `set_preamble` or `set_landing_page` with a
`None` text argument is a complete no-op: the whole state — every attribute
and the serializable structure — is returned unchanged, and no re-projection
(`update`) is triggered (both functions return before reaching it). -/
theorem c10_none_noop (s : SchemaBase) (lang : Option String) :
    s.set_preamble none lang = s ∧ s.set_landing_page none lang = s :=
  ⟨rfl, rfl⟩

/-- C9: for every entity and every previously stored `compute` value,
`set_compute(variable, expression)` leaves the `compute` attribute equal to
the single-element sequence `[{variableName: variable, jsExpression:
expression}]` — discarding, not appending to, any prior entries (the state
`s` is universally quantified, so any prior `compute` is covered) — and
re-projects it into the serializable structure. -/
theorem c9_set_compute_replaces (s : SchemaBase) (vName expr : String) :
    (s.set_compute vName expr).compute =
      [Value.obj [("variableName", Value.str vName),
                  ("jsExpression", Value.str expr)]] ∧
    dictGet (s.set_compute vName expr).schema "compute" =
      some (Value.arr [Value.obj [("variableName", Value.str vName),
                                  ("jsExpression", Value.str expr)]]) := by
  constructor
  · rfl
  · simp [SchemaBase.set_compute, SchemaBase.update, SchemaBase.update_ui,
      dictGet_dictSet]

/-- C7: `from_data` on a mapping carrying a `@type` key fails with the
`ValueError` the spec's taxonomy calls `TypeMismatchError` whenever the tag
differs from the variant default's fixed `at_type`, and never silently
accepts such data; on a matching tag it returns an entity whose serializable
structure is exactly the given mapping. -/
theorem c7_from_data_type_check (dflt : SchemaBase) (data : List (String × Value))
    (v : Value) (h : dictGet data "@type" = some v) :
    (v ≠ Value.str dflt.at_type → dflt.from_data data = .error .typeMismatch) ∧
    (v = Value.str dflt.at_type →
      dflt.from_data data = .ok { dflt with schema := data }) := by
  constructor
  · intro hne
    simp [SchemaBase.from_data, h, hne]
  · intro heq
    simp [SchemaBase.from_data, h, heq]

theorem c7_from_data_type_check_witness :
    SchemaBase.from_data activityDefault
        [("@type", Value.str "reproschema:Protocol")] = .error .typeMismatch ∧
    SchemaBase.from_data activityDefault
        [("@type", Value.str "reproschema:Activity")] =
      .ok { activityDefault with
              schema := [("@type", Value.str "reproschema:Activity")] } :=
  ⟨(c7_from_data_type_check activityDefault
      [("@type", Value.str "reproschema:Protocol")]
      (Value.str "reproschema:Protocol") (by decide)).1 (by decide),
   (c7_from_data_type_check activityDefault
      [("@type", Value.str "reproschema:Activity")]
      (Value.str "reproschema:Activity") (by decide)).2 (by decide)⟩

/-- C8: the `attrs` validation of the type tag: constructing an entity with a
tag outside the enumeration `{reproschema:Protocol, reproschema:Activity,
reproschema:Field, reproschema:ResponseOption}` fails with `ValidationError`,
and a tag inside the enumeration passes the tag validator. -/
theorem c8_at_type_validation (s : String) :
    (s ∉ AT_TYPE_ENUM → validate_at_type (some s) = .error (.validationError s)) ∧
    (s ∈ AT_TYPE_ENUM → validate_at_type (some s) = .ok s) := by
  constructor <;> intro h <;> simp [validate_at_type, h]

theorem c8_at_type_validation_witness :
    validate_at_type (some "reproschema:Item") =
      .error (.validationError "reproschema:Item") ∧
    validate_at_type (some "reproschema:Activity") = .ok "reproschema:Activity" :=
  ⟨(c8_at_type_validation _).1 (by decide), (c8_at_type_validation _).2 (by decide)⟩

/-- C4 (code bug): `set_alt_label` with a non-`None` label raises
`AttributeError` instead of mutating `altLabel`: the assignment
`self.alt_label[lang] = alt_label` reads the non-existent attribute
`alt_label` (the `attrs` field is named `altLabel`; nothing in the repository
defines `alt_label`), so the claimed behaviour — mutate the `altLabel`
mapping and call `update()` without raising — never happens.  Evaluation of
the code at a failing input: -/
theorem c4_set_alt_label_attribute_error :
    SchemaBase.set_alt_label activityDefault (some "my alt label") none =
      .error (.attributeError "alt_label") :=
  rfl

/-- An entity whose `inputType` attribute is set: used to refute C2. -/
def c2entity : SchemaBase := { activityDefault with inputType := "text" }

/-- C2 (counterexample): `update()` does not copy `inputType` (nor
`readonlyValue`, `visible`, `required`, `skippable`, `limit`) into the
serializable structure: on an entity whose `inputType` attribute is `"text"`,
the structure still has no `inputType` key after `update()` — the claim that
`update()` copies every schema-visible attribute including `inputType` is
false. -/
theorem c2_update_counterexample :
    c2entity.inputType = "text" ∧
    dictGet (SchemaBase.update c2entity).schema "inputType" = none := by
  decide

/-- C2 (amended): `update()` copies `@id`, `@type`, `@context` and the eleven
keys of `keys_to_update` (`schemaVersion`, `version`, `prefLabel`,
`altLabel`, `description`, `citation`, `image`, `preamble`, `landingPage`,
`compute`, `question`) from the attribute set into the serializable structure
in one pass, refreshes the embedded `ui` sub-document, returns nothing and
never fails (it is a total function of the state); it does NOT copy
`inputType`, `readonlyValue`, `visible`, `required`, `skippable` or `limit`,
whose keys in the structure are left exactly as they were. -/
theorem c2_update_amended (s : SchemaBase) :
    dictGet (s.update).schema "@id" = some (Value.str s.at_id) ∧
    dictGet (s.update).schema "@type" = some (Value.str s.at_type) ∧
    dictGet (s.update).schema "@context" = some (Value.str s.at_context) ∧
    dictGet (s.update).schema "schemaVersion" = some (Value.str s.schemaVersion) ∧
    dictGet (s.update).schema "version" = some (Value.str s.version) ∧
    dictGet (s.update).schema "prefLabel" = some (langVal s.prefLabel) ∧
    dictGet (s.update).schema "altLabel" = some (langVal s.altLabel) ∧
    dictGet (s.update).schema "description" = some (Value.str s.description) ∧
    dictGet (s.update).schema "citation" = some (Value.str s.citation) ∧
    dictGet (s.update).schema "image" =
      some (match s.image with | none => Value.null | some v => v) ∧
    dictGet (s.update).schema "preamble" = some (langVal s.preamble) ∧
    dictGet (s.update).schema "landingPage" = some (langVal s.landingPage) ∧
    dictGet (s.update).schema "compute" = some (Value.arr s.compute) ∧
    dictGet (s.update).schema "question" = some (langVal s.question) ∧
    dictGet (s.update).schema "ui" = some (Value.obj (s.ui.update).schema) ∧
    (s.update).ui = s.ui.update ∧
    dictGet (s.update).schema "inputType" = dictGet s.schema "inputType" ∧
    dictGet (s.update).schema "readonlyValue" = dictGet s.schema "readonlyValue" ∧
    dictGet (s.update).schema "visible" = dictGet s.schema "visible" ∧
    dictGet (s.update).schema "required" = dictGet s.schema "required" ∧
    dictGet (s.update).schema "skippable" = dictGet s.schema "skippable" ∧
    dictGet (s.update).schema "limit" = dictGet s.schema "limit" ∧
    (s.update).inputType = s.inputType ∧
    (s.update).visible = s.visible ∧
    (s.update).limit = s.limit := by
  refine ⟨?_, ?_, ?_, ?_, ?_, ?_, ?_, ?_, ?_, ?_, ?_, ?_, ?_, ?_, ?_,
    rfl, ?_, ?_, ?_, ?_, ?_, ?_, rfl, rfl, rfl⟩ <;>
    simp [SchemaBase.update, SchemaBase.update_ui, dictGet_dictSet]

/-- An entity whose `prefLabel` holds an entry only for a language other than
the default `"en"`: used to refute C5. -/
def c5entity : SchemaBase := { activityDefault with prefLabel := [("es", "hola")] }

/-- C5 (counterexample): `set_pref_label()` with no argument fails with
`KeyError` when `prefLabel` is non-empty but holds entries only for languages
other than the default: the guard evaluates
`self.prefLabel[DEFAULT_LANG()]`, and `"en"` is not a key — the claim that it
"does not fail" in this situation is false. -/
theorem c5_set_pref_label_counterexample :
    SchemaBase.set_pref_label c5entity none none = .error (.keyError "en") := by
  decide

/-- C5 (amended): `set_pref_label` with no argument re-derives the label from
`id` (underscores to spaces, stored under the entity's language) exactly when
`prefLabel` is empty or its `"en"` entry is one of the placeholders
`"protocol"`, `"activity"`, `"item"`; when the `"en"` entry exists and is not
a placeholder it leaves the entity unchanged; but when `prefLabel` is
non-empty without an `"en"` entry it raises `KeyError` instead of leaving the
entity unchanged. -/
theorem c5_set_pref_label_amended (s : SchemaBase) :
    (s.prefLabel = [] →
      s.set_pref_label none none =
        .ok (s.set_pref_label_explicit (pyReplace s.at_id "_" " ") s.lang)) ∧
    (∀ v, dictGet s.prefLabel DEFAULT_LANG = some v → v ∈ PLACEHOLDERS →
      s.set_pref_label none none =
        .ok (s.set_pref_label_explicit (pyReplace s.at_id "_" " ") s.lang)) ∧
    (∀ v, dictGet s.prefLabel DEFAULT_LANG = some v → v ∉ PLACEHOLDERS →
      s.set_pref_label none none = .ok s) ∧
    (s.prefLabel ≠ [] → dictGet s.prefLabel DEFAULT_LANG = none →
      s.set_pref_label none none = .error (.keyError DEFAULT_LANG)) := by
  refine ⟨?_, ?_, ?_, ?_⟩
  · intro h
    simp [SchemaBase.set_pref_label, h]
  · intro v hv hmem
    have hne : s.prefLabel ≠ [] := by
      intro h0
      rw [h0] at hv
      cases hv
    simp [SchemaBase.set_pref_label, hne, hv, hmem]
  · intro v hv hmem
    have hne : s.prefLabel ≠ [] := by
      intro h0
      rw [h0] at hv
      cases hv
    simp [SchemaBase.set_pref_label, hne, hv, hmem]
  · intro hne hnone
    simp [SchemaBase.set_pref_label, hne, hnone]

theorem c5_set_pref_label_amended_witness :
    SchemaBase.set_pref_label
        { activityDefault with prefLabel := [("fr", "bonjour")] } none none =
      .error (.keyError "en") :=
  (c5_set_pref_label_amended _).2.2.2 (by decide) (by decide)

/-- The filename the claim's words describe: strip one trailing extension,
then one trailing suffix (a suffix is by definition at the end of the name),
replace spaces with underscores, then re-append the configured suffix and
extension.  Stated from the spec's words only, for comparison with the code's
`sanitizeBase`. -/
def specClaimedFilename (name suffix ext : String) : String :=
  let strip1 := fun (s pat : String) =>
    if pyEndsWith s pat then String.mk (s.data.take (s.data.length - pat.data.length))
    else s
  pyReplace (strip1 (strip1 name ext) suffix) " " "_" ++ suffix ++ ext

/-- C6 (counterexample): `set_filename` strips by Python `str.replace`, which
removes EVERY occurrence of the suffix once the name merely ends with it, not
just the trailing one: with the default suffix `"_schema"` and extension
`".jsonld"`, the name `"x_schema_y_schema"` yields id `"x_y_schema.jsonld"`,
while stripping only the pre-existing (trailing) suffix and re-appending, as
the claim states, would yield `"x_schema_y_schema.jsonld"`. -/
theorem c6_set_filename_counterexample :
    (SchemaBase.set_filename activityDefault (some "x_schema_y_schema")).at_id =
      "x_y_schema.jsonld" ∧
    specClaimedFilename "x_schema_y_schema"
        activityDefault.suffix activityDefault.ext = "x_schema_y_schema.jsonld" ∧
    (SchemaBase.set_filename activityDefault (some "x_schema_y_schema")).at_id ≠
      specClaimedFilename "x_schema_y_schema"
        activityDefault.suffix activityDefault.ext := by
  decide

/-- C6 (amended): `set_filename` is idempotent — calling it twice with the
same base name yields the same `id` and the same `URI` as calling it once —
and the resulting id equals the name with every occurrence of the configured
extension removed (when the name ends with it), then every occurrence of the
configured suffix removed (when the name then ends with it), spaces replaced
by underscores, and the configured suffix and extension re-appended; the URI
re-joins `output_dir` with the new id. -/
theorem c6_set_filename_amended (s : SchemaBase) (name : String) :
    ((s.set_filename (some name)).set_filename (some name)).at_id =
      (s.set_filename (some name)).at_id ∧
    ((s.set_filename (some name)).set_filename (some name)).URI =
      (s.set_filename (some name)).URI ∧
    (s.set_filename (some name)).at_id =
      sanitizeBase name s.suffix s.ext ++ s.suffix ++ s.ext ∧
    (s.set_filename (some name)).URI =
      pathJoin s.output_dir (sanitizeBase name s.suffix s.ext ++ s.suffix ++ s.ext) :=
  ⟨rfl, rfl, rfl, rfl⟩

/-- C3: for every entity whose canonical order is duplicate-free and contains
`"ui"`, and whose structure carries a `ui` key (`update` always sets one),
after `sort()` the structure's key sequence equals the canonical order
restricted to the keys present — no key out of order, no key duplicated —
and every key/value pair of the written output has a non-empty value (empty
or default values are dropped entirely, never emitted as null or empty). -/
theorem c3_sort_canonical_order (s : SchemaBase)
    (hnd : s.schema_order.Nodup)
    (huiOrd : "ui" ∈ s.schema_order)
    (huiIn : "ui" ∈ keys s.schema) :
    keys s.sort.schema =
      s.schema_order.filter (fun k => k ∈ keys s.sort.schema) ∧
    (keys s.sort.schema).Nodup ∧
    (∀ kv ∈ s.writtenDoc, isEmptyValue kv.2 = false) := by
  have hR : s.sort.schema =
      dictSet (reorder_dict_skip_missing s.schema s.schema_order) "ui"
        (Value.obj (s.ui.update).schema) := rfl
  have huiR : "ui" ∈ keys (reorder_dict_skip_missing s.schema s.schema_order) := by
    rw [keys_reorder]
    exact List.mem_filter.mpr ⟨huiOrd, by simp [(dictGet_isSome_iff _ _).mpr huiIn]⟩
  have hkeys : keys s.sort.schema =
      s.schema_order.filter (fun k => (dictGet s.schema k).isSome) := by
    rw [hR, keys_dictSet_of_mem _ _ _ huiR, keys_reorder]
  refine ⟨?_, ?_, mem_drop_empty_not_empty _⟩
  · rw [hkeys]
    refine (List.filter_congr ?_).symm
    intro k hk
    rcases hp : (dictGet s.schema k).isSome <;>
      simp [List.mem_filter, hk, hp, hkeys]
  · rw [hkeys]
    exact hnd.filter _

theorem c3_sort_canonical_order_witness :
    keys (SchemaBase.sort activityDefault).schema =
      activityDefault.schema_order.filter
        (fun k => k ∈ keys (SchemaBase.sort activityDefault).schema) ∧
    (keys (SchemaBase.sort activityDefault).schema).Nodup ∧
    (∀ kv ∈ SchemaBase.writtenDoc activityDefault, isEmptyValue kv.2 = false) :=
  c3_sort_canonical_order activityDefault (by decide) (by decide) (by decide)

/-- The written document of the pipeline keeps the `@type` binding whenever
the attribute projection put a non-empty tag there. -/
theorem written_contains_type (m : List (String × Value)) (ord : List String)
    (uval : Value) (tv : String) (hnd : ord.Nodup) (htyOrd : "@type" ∈ ord)
    (hty : dictGet m "@type" = some (Value.str tv)) (htyNE : tv ≠ "") :
    dictGet (drop_empty_values
        (dictSet (reorder_dict_skip_missing m ord) "ui" uval)) "@type" =
      some (Value.str tv) := by
  have h1 : dictGet (reorder_dict_skip_missing m ord) "@type" =
      some (Value.str tv) := by
    rw [dictGet_reorder _ _ hnd _ htyOrd]
    exact hty
  have h2 : dictGet (dictSet (reorder_dict_skip_missing m ord) "ui" uval)
      "@type" = some (Value.str tv) := by
    rw [dictGet_dictSet]
    simp [h1]
  refine dictGet_drop_empty_of_some _ _ _ h2 ?_
  simp only [isEmptyValue]
  exact beq_eq_false_iff_ne.mpr htyNE

/-- Writing is stable on a freshly reloaded document: re-sorting a written
document is the identity, and re-embedding the same `ui` value then dropping
empties reproduces the document — whether or not that `ui` value is empty. -/
theorem write_pipeline_stable (m : List (String × Value)) (ord : List String)
    (uval : Value) (hnd : ord.Nodup) (huiOrd : "ui" ∈ ord)
    (huiIn : "ui" ∈ keys m) :
    drop_empty_values (dictSet (reorder_dict_skip_missing
        (drop_empty_values (dictSet (reorder_dict_skip_missing m ord) "ui" uval))
        ord) "ui" uval) =
      drop_empty_values (dictSet (reorder_dict_skip_missing m ord) "ui" uval) := by
  have huiR : "ui" ∈ keys (reorder_dict_skip_missing m ord) := by
    rw [keys_reorder]
    exact List.mem_filter.mpr ⟨huiOrd, by simp [(dictGet_isSome_iff _ _).mpr huiIn]⟩
  have hkeysSetR : keys (dictSet (reorder_dict_skip_missing m ord) "ui" uval) =
      keys (reorder_dict_skip_missing m ord) := keys_dictSet_of_mem _ _ _ huiR
  have hkeysRsub : List.Sublist (keys (reorder_dict_skip_missing m ord)) ord := by
    rw [keys_reorder]
    exact List.filter_sublist _
  have hkeysRnd : (keys (reorder_dict_skip_missing m ord)).Nodup := by
    rw [keys_reorder]
    exact hnd.filter _
  have hsetRnd : (keys (dictSet (reorder_dict_skip_missing m ord) "ui" uval)).Nodup := by
    rw [hkeysSetR]
    exact hkeysRnd
  have hD1sub : List.Sublist (keys (drop_empty_values
      (dictSet (reorder_dict_skip_missing m ord) "ui" uval))) ord := by
    refine (keys_drop_empty_sublist _).trans ?_
    rw [hkeysSetR]
    exact hkeysRsub
  rw [reorder_eq_self _ _ hnd hD1sub]
  have hgetSetRui : dictGet (dictSet (reorder_dict_skip_missing m ord) "ui" uval)
      "ui" = some uval := by
    rw [dictGet_dictSet]
    simp
  by_cases hU : isEmptyValue uval = true
  · have hgetD1ui : dictGet (drop_empty_values
        (dictSet (reorder_dict_skip_missing m ord) "ui" uval)) "ui" = none :=
      dictGet_drop_empty_of_empty _ _ _ hsetRnd hgetSetRui hU
    rw [dictSet_of_not_mem _ _ _ ((dictGet_eq_none_iff _ _).mp hgetD1ui)]
    rw [drop_empty_append, drop_empty_idem]
    simp [drop_empty_values, List.filter_cons, hU]
  · have hU' : isEmptyValue uval = false := by
      revert hU
      cases isEmptyValue uval <;> simp
    have hgetD1ui : dictGet (drop_empty_values
        (dictSet (reorder_dict_skip_missing m ord) "ui" uval)) "ui" = some uval :=
      dictGet_drop_empty_of_some _ _ _ hgetSetRui hU'
    rw [dictSet_eq_self _ _ _ hgetD1ui, drop_empty_idem]

/-- An entity whose UI carries one appended order entry (what
`Activity.append_item` produces): used to refute C1. -/
def c1entity : SchemaBase :=
  { activityDefault with ui := { activityDefault.ui with order := ["item1"] } }

/-- C1 (counterexample): the round trip is NOT byte-preserving for every
entity.  `from_data` adopts the written structure but leaves the in-memory
`ui` attribute at the freshly-constructed default, and `write` regenerates
the `ui` key from that attribute: for an Activity whose UI order holds one
entry, loading its written document into a default Activity (type tags match)
and writing again yields a different document — hence different bytes — with
no attribute-level mutation in between. -/
theorem c1_round_trip_counterexample :
    SchemaBase.from_data activityDefault (SchemaBase.writtenDoc c1entity) =
      .ok { activityDefault with schema := SchemaBase.writtenDoc c1entity } ∧
    SchemaBase.writtenDoc
        { activityDefault with schema := SchemaBase.writtenDoc c1entity } ≠
      SchemaBase.writtenDoc c1entity := by
  decide

/-- C1 (amended): the round trip holds exactly when the reloaded entity
regenerates the same `ui` sub-document: for an entity whose in-memory UI
equals the variant default's UI (and whose structure was projected by
`update`, so it carries the variant's non-empty `@type` and a `ui` key),
loading the written document via `from_data` with matching type tag succeeds
with the written structure adopted verbatim, and writing the loaded entity
reproduces the originally written document (hence the same bytes under the
deterministic `json.dump`). -/
theorem c1_round_trip_amended (d s : SchemaBase)
    (hord : s.schema_order = d.schema_order)
    (hnd : d.schema_order.Nodup)
    (htyOrd : "@type" ∈ d.schema_order)
    (huiOrd : "ui" ∈ d.schema_order)
    (hui : s.ui = d.ui)
    (hty : dictGet s.schema "@type" = some (Value.str d.at_type))
    (htyNE : d.at_type ≠ "")
    (huiIn : "ui" ∈ keys s.schema) :
    SchemaBase.from_data d s.writtenDoc =
      .ok { d with schema := s.writtenDoc } ∧
    SchemaBase.writtenDoc { d with schema := s.writtenDoc } = s.writtenDoc := by
  have hD1eq : s.writtenDoc =
      drop_empty_values (dictSet (reorder_dict_skip_missing s.schema d.schema_order)
        "ui" (Value.obj (s.ui.update).schema)) := by
    rw [← hord]
    rfl
  constructor
  · have hA := written_contains_type s.schema d.schema_order
      (Value.obj (s.ui.update).schema) d.at_type hnd htyOrd hty htyNE
    rw [hD1eq]
    simp [SchemaBase.from_data, hA]
  · have h2a : SchemaBase.writtenDoc { d with schema := s.writtenDoc } =
        drop_empty_values (dictSet
          (reorder_dict_skip_missing s.writtenDoc d.schema_order) "ui"
          (Value.obj (d.ui.update).schema)) := rfl
    rw [h2a, ← hui, hD1eq]
    exact write_pipeline_stable s.schema d.schema_order
      (Value.obj (s.ui.update).schema) hnd huiOrd huiIn

theorem c1_round_trip_amended_witness :
    SchemaBase.from_data activityDefault (SchemaBase.writtenDoc activityDefault) =
      .ok { activityDefault with schema := SchemaBase.writtenDoc activityDefault } ∧
    SchemaBase.writtenDoc
        { activityDefault with schema := SchemaBase.writtenDoc activityDefault } =
      SchemaBase.writtenDoc activityDefault :=
  c1_round_trip_amended activityDefault activityDefault rfl (by decide) (by decide)
    (by decide) rfl (by decide) (by decide) (by decide)

end Reproschema
